import Mathlib

/-!
Verification development for the constraint-gated recommendation/matching
engine of the nutri-b2c-backend repository.

The development shallowly embeds two call paths:

* the consumer personalized feed: `getStrictPrefs` and `getPersonalizedFeed`
  (src/server/services/feed.ts) together with the SQL helper
  `recipe_is_safe_for_profile` and the reason builders
  (src/migrations/006_strict_recommendation.sql);
* the enterprise health matching service: `deriveHealthConstraints`,
  `executeHealthAwareQuery`, `scoreAndRankMatches`, `findHealthAwareMatches`,
  `batchHealthMatching`, `clearCustomerCache`
  (src/server/services/b2b/matchingService.ts).

Modelling conventions:

* JS numbers and SQL numerics are modelled as rationals; machine integers
  as Nat/Int.  Nullable columns and optional JS fields are Option.
* SQL "ORDER BY"s and the JS Array.sort (stable in modern engines) are
  modelled with List.insertionSort, which is stable, so ties keep the
  order of the candidate snapshot, exactly like a stable sort over the
  rows in the order the database returned them.
* The numeric feed scores computed by the SQL of passes 1 and 2 depend on
  wall-clock time, the full history table and transcendental functions
  (EXP); they are therefore abstracted as score functions carried by the
  environment (`FeedEnv.scoreStrict`, `FeedEnv.scoreBalanced`).  No claim
  under study depends on their concrete values.  Likewise
  `FeedEnv.viewedRecently` abstracts the NOT EXISTS subquery over
  recipe_history rows younger than 48 hours, and `FeedEnv.cooked30d` the
  30-day cooked counter of the lateral join.
* Database reads and the Redis cache of the matching service are explicit
  state (`MatchSt`); redis setex/get/del with TTL becomes an association
  list of entries with absolute expiry instants.
-/

/-! ### Character and string helpers (kernel-reducible replacements) -/

/-- Lower-casing of one string, char by char (models SQL lower()). -/
def lowerStr (s : String) : String := ⟨s.data.map Char.toLower⟩

/-- Lower-case every element of a text array. -/
def lowerAll (xs : List String) : List String := xs.map lowerStr

/-- Does the second list lead the first one (needle leads hay)? -/
def takesLead : List Char → List Char → Bool
  | [], _ => true
  | _ :: _, [] => false
  | a :: as, b :: bs => a == b && takesLead as bs

/-- Contiguous-substring test on char lists: hay contains needle. -/
def listHasSub : List Char → List Char → Bool
  | _, [] => true
  | [], _ :: _ => false
  | c :: t, n :: ns => takesLead (n :: ns) (c :: t) || listHasSub t (n :: ns)

/-- Substring test on strings: models SQL LIKE with the needle between
two percent wildcards. -/
def hasSub (hay needle : String) : Bool := listHasSub hay.data needle.data

/-- Does one string start with another (models a redis glob pattern whose
only wildcard is a trailing star)? -/
def strStarts (s pat : String) : Bool := takesLead pat.data s.data

/-- SQL array overlap operator on text arrays. -/
def overlaps (xs ys : List String) : Bool := xs.any (fun x => ys.contains x)

/-! ### Generic descending lexicographic comparison

Models a three-key ORDER BY with the first two keys descending and the
last ascending; used (totally ordered, transitive) by all sorts below. -/

/-- Relation "a may come before b" for ORDER BY f DESC, g DESC, h ASC. -/
def lex3 {α : Type} {β γ δ : Type} [LinearOrder β] [LinearOrder γ] [LinearOrder δ]
    (f : α → β) (g : α → γ) (h : α → δ) (a b : α) : Prop :=
  f b < f a ∨ (f a = f b ∧ (g b < g a ∨ (g a = g b ∧ h a ≤ h b)))

instance lex3DecidableRel {α β γ δ : Type} [LinearOrder β] [LinearOrder γ] [LinearOrder δ]
    (f : α → β) (g : α → γ) (h : α → δ) : DecidableRel (lex3 f g h) := fun a b => by
  unfold lex3; exact inferInstance

/-! ### Consumer feed data model (recipes table columns used by the engine) -/

/-- Snapshot row of the recipes table (fields read by the feed queries and
by recipe_is_safe_for_profile).  Nullable numeric columns are Option;
ingredients is the jsonb array of ingredient names (null when absent). -/
structure Recipe where
  id : Nat
  status : String
  marketCountry : String
  dietTags : List String
  allergens : List String
  ingredients : Option (List String)
  sugarG : Option ℚ
  sodiumMg : Option ℚ
  saturatedFatG : Option ℚ
  proteinG : Option ℚ
  fiberG : Option ℚ
  calories : Option ℚ
  cuisines : List String
  updatedAt : Int
deriving DecidableEq

/-- Strict profile preferences produced by getStrictPrefs (feed.ts). -/
structure StrictPrefs where
  diets : List String
  allergens : List String
  cuisines : List String
  dislikes : List String
  conditions : List String
deriving DecidableEq

/-- Row of user_profiles read by getStrictPrefs, after the SQL coalesce
of each array column to the empty array. -/
structure BaseProfileRow where
  diets : List String
  allergens : List String
  cuisines : List String
deriving DecidableEq

/-- Row of health_profiles read by getStrictPrefs, after the SQL coalesce. -/
structure HealthProfileRow where
  dislikes : List String
  conditions : List String
deriving DecidableEq

/-- getStrictPrefs (feed.ts lines 19-60): the base row populates diets,
allergens and cuisines; a missing row leaves every set empty.  The
health_profiles row, when present, fills dislikes and conditions;
when absent (or when the table is missing and the query throws) the
defaults stay empty. -/
def getStrictPrefs (base : Option BaseProfileRow) (hp : Option HealthProfileRow) :
    StrictPrefs :=
  let out : StrictPrefs :=
    match base with
    | some b => { diets := b.diets, allergens := b.allergens, cuisines := b.cuisines,
                  dislikes := [], conditions := [] }
    | none => { diets := [], allergens := [], cuisines := [], dislikes := [], conditions := [] }
  match hp with
  | some h => { out with dislikes := h.dislikes, conditions := h.conditions }
  | none => out

/-! ### recipe_is_safe_for_profile (006_strict_recommendation.sql lines 10-94) -/

/-- The diets the SQL function treats as hard (exclusionary) diets. -/
def strictDietList : List String :=
  ["vegetarian", "vegan", "pescatarian", "lacto-vegetarian", "ovo-vegetarian",
   "lacto_ovo_vegetarian", "lacto vegetarian", "ovo vegetarian"]

/-- diet_ok of recipe_is_safe_for_profile: gate only on strict diets; if any
strict diet is selected the recipe must carry at least one of them. -/
def dietOkB (r : Recipe) (diets : List String) : Bool :=
  let strictSel := (lowerAll diets).filter (fun x => strictDietList.contains x)
  if strictSel.isEmpty then true else overlaps (lowerAll r.dietTags) strictSel

/-- allergen_ok: if allergens are provided the recipe must not contain any. -/
def allergenOkB (r : Recipe) (allergens : List String) : Bool :=
  let na := lowerAll allergens
  if na.isEmpty then true else !(overlaps (lowerAll r.allergens) na)

/-- dislike_ok: substring check of each disliked ingredient against the
lower-cased ingredient names; a null ingredients column skips the check. -/
def dislikeOkB (r : Recipe) (dislikes : List String) : Bool :=
  let nd := lowerAll dislikes
  if nd.isEmpty then true else
    match r.ingredients with
    | none => true
    | some ings => !(nd.any (fun d => ings.any (fun nm => hasSub (lowerStr nm) d)))

/-- cond_ok: conservative per-condition caps (sugar for diabetes, sodium for
hypertension, saturated fat for high cholesterol); null nutrition passes. -/
def condOkB (r : Recipe) (conditions : List String) : Bool :=
  let nc := lowerAll conditions
  if nc.isEmpty then true else
    (!(nc.contains "diabetes" &&
        (match r.sugarG with | some s => decide (10 < s) | none => false))) &&
    (!(nc.contains "hypertension" &&
        (match r.sodiumMg with | some s => decide (600 < s) | none => false))) &&
    (!((nc.contains "high_cholesterol" || nc.contains "hyperlipidemia") &&
        (match r.saturatedFatG with | some s => decide (8 < s) | none => false)))

/-- recipe_is_safe_for_profile: conjunction of the four gates. -/
def recipe_is_safe_for_profile (r : Recipe)
    (diets allergens dislikes conditions : List String) : Bool :=
  dietOkB r diets && allergenOkB r allergens &&
  dislikeOkB r dislikes && condOkB r conditions

/-! ### Feed reason builders (006_strict_recommendation.sql) -/

/-- build_feed_reasons (diet match, cuisine match, protein, fiber, and the
unconditional trailing popularity line). -/
def build_feed_reasons (r : Recipe) (userDiets userCuisines : List String) :
    List String :=
  (if !userDiets.isEmpty && overlaps r.dietTags userDiets
     then ["Matches your diet"] else []) ++
  (if !userCuisines.isEmpty && overlaps r.cuisines userCuisines
     then ["One of your favorite cuisines"] else []) ++
  (if (match r.proteinG with | some p => decide (20 < p) | none => false)
     then ["High protein"] else []) ++
  (if (match r.fiberG with | some f => decide (5 < f) | none => false)
     then ["High fiber"] else []) ++
  ["Popular this week"]

/-- build_health_reasons (allergen avoidance plus per-condition highlights). -/
def build_health_reasons (r : Recipe) (allergens conditions : List String) :
    List String :=
  let na := lowerAll allergens
  let nc := lowerAll conditions
  (if !na.isEmpty && !(overlaps (lowerAll r.allergens) na)
     then ["Avoids your allergens"] else []) ++
  (if !nc.isEmpty then
    (if nc.contains "diabetes" &&
        (match r.sugarG with | some s => decide (s ≤ 10) | none => false)
       then ["Diabetes-friendly (low sugar)"] else []) ++
    (if nc.contains "hypertension" &&
        (match r.sodiumMg with | some s => decide (s ≤ 600) | none => false)
       then ["Lower sodium option"] else []) ++
    (if (nc.contains "high_cholesterol" || nc.contains "hyperlipidemia") &&
        (match r.saturatedFatG with | some s => decide (s ≤ 8) | none => false)
       then ["Lower saturated fat"] else [])
   else [])

/-! ### The three cascade passes of getPersonalizedFeed (feed.ts lines 62-222) -/

/-- Environment of one feed request: the recipes snapshot plus the
time-and-history-dependent quantities abstracted from the SQL (see the
header comment). -/
structure FeedEnv where
  recipes : List Recipe
  viewedRecently : Nat → Bool
  cooked30d : Nat → Nat
  scoreStrict : Recipe → ℚ
  scoreBalanced : Recipe → ℚ

/-- One row of the feed result (recipe, score, reasons). -/
structure FeedResult where
  recipe : Recipe
  score : ℚ
  reasons : List String
deriving DecidableEq

/-- Sort used by the pass-1 and pass-2 queries: score DESC, updated_at
DESC, id ASC. -/
def sortFeed (score : Recipe → ℚ) (l : List Recipe) : List Recipe :=
  l.insertionSort (lex3 score (fun r => r.updatedAt) (fun r => r.id))

/-- WHERE clause of pass 1: published US recipe, safe for the full strict
profile, and not viewed within the last 48 hours. -/
def pass1Gate (env : FeedEnv) (prefs : StrictPrefs) (r : Recipe) : Bool :=
  r.status == "published" && r.marketCountry == "US" &&
  recipe_is_safe_for_profile r prefs.diets prefs.allergens prefs.dislikes prefs.conditions &&
  !(env.viewedRecently r.id)

/-- WHERE clause of pass 2: safety check is called with an empty conditions
array (conditions become soft); the recently-viewed exclusion is gone. -/
def pass2Gate (prefs : StrictPrefs) (r : Recipe) : Bool :=
  r.status == "published" && r.marketCountry == "US" &&
  recipe_is_safe_for_profile r prefs.diets prefs.allergens prefs.dislikes []

/-- WHERE clause of pass 3: safety check is called with empty dislikes and
empty conditions arrays. -/
def pass3Gate (prefs : StrictPrefs) (r : Recipe) : Bool :=
  r.status == "published" && r.marketCountry == "US" &&
  recipe_is_safe_for_profile r prefs.diets prefs.allergens [] []

/-- Pass 1 (strict): gate, order, OFFSET then LIMIT, and row mapping. -/
def strictPass (env : FeedEnv) (prefs : StrictPrefs) (limit offset : Nat) :
    List FeedResult :=
  (((sortFeed env.scoreStrict (env.recipes.filter (pass1Gate env prefs))).drop offset).take
      limit).map
    (fun r => { recipe := r, score := env.scoreStrict r,
                reasons := build_feed_reasons r prefs.diets prefs.cuisines ++
                           build_health_reasons r prefs.allergens prefs.conditions })

/-- Pass 2 (balanced): the query excludes the ids already chosen, over-fetches
max(limit*2, 400) rows, and the JS then filters the exclusion list again. -/
def balancedPass (env : FeedEnv) (prefs : StrictPrefs) (limit : Nat)
    (excludeIds : List Nat) : List FeedResult :=
  (((sortFeed env.scoreBalanced
        (env.recipes.filter (fun r => pass2Gate prefs r && !(excludeIds.contains r.id)))).take
      (max (limit * 2) 400)).map
    (fun r => { recipe := r, score := env.scoreBalanced r,
                reasons := build_feed_reasons r prefs.diets prefs.cuisines })).filter
    (fun fr => !(excludeIds.contains fr.recipe.id))

/-- Pass 3 (popularity fallback): ordered by the 30-day cooked count DESC,
updated_at DESC, id ASC; the score column is that count; fixed reason. -/
def fallbackPass (env : FeedEnv) (prefs : StrictPrefs) (remaining : Nat)
    (excludeIds : List Nat) : List FeedResult :=
  (((env.recipes.filter
        (fun r => pass3Gate prefs r && !(excludeIds.contains r.id))).insertionSort
      (lex3 (fun r => env.cooked30d r.id) (fun r => r.updatedAt) (fun r => r.id))).take
      (max (remaining * 2) remaining)).map
    (fun r => { recipe := r, score := ((env.cooked30d r.id : Nat) : ℚ),
                reasons := ["Popular this month"] }) |>.filter
    (fun fr => !(excludeIds.contains fr.recipe.id))

/-- Cascade of getPersonalizedFeed over already-derived preferences:
return the strict page if full, otherwise top up from the balanced pass
and finally from the popularity fallback, deduplicating by recipe id and
cutting at the limit. -/
def personalizedFeedRanked (env : FeedEnv) (prefs : StrictPrefs)
    (limit offset : Nat) : List FeedResult :=
  let strict := strictPass env prefs limit offset
  if limit ≤ strict.length then strict
  else
    let excludeIds := strict.map (fun r => r.recipe.id)
    let balanced := balancedPass env prefs limit excludeIds
    let combined := (strict ++ balanced).take limit
    if limit ≤ combined.length then combined
    else
      let exclude2 := combined.map (fun r => r.recipe.id)
      let remaining := limit - combined.length
      (combined ++ fallbackPass env prefs remaining exclude2).take limit

/-- getPersonalizedFeed: derive the strict preferences from the profile
rows, then run the cascade. -/
def getPersonalizedFeed (env : FeedEnv) (base : Option BaseProfileRow)
    (hp : Option HealthProfileRow) (limit offset : Nat) : List FeedResult :=
  personalizedFeedRanked env (getStrictPrefs base hp) limit offset

/-- The safe catalog after hard exclusions: published US recipes passing the
safety gate of the most relaxed tier (diets and allergens; this is the
widest set any tier may draw from). -/
def feedSafeCatalog (env : FeedEnv) (prefs : StrictPrefs) : List Recipe :=
  env.recipes.filter (pass3Gate prefs)

/-! ### Enterprise matching data model (matchingService.ts) -/

/-- Snapshot row of the products table (columns selected by
executeHealthAwareQuery).  Nullable columns are Option. -/
structure Product where
  id : String
  name : String
  brand : Option String
  healthScore : Option ℚ
  price : Option ℚ
  servingSize : Option String
  calories : Option ℚ
  proteinG : Option ℚ
  carbsG : Option ℚ
  fatG : Option ℚ
  fiberG : Option ℚ
  sugarG : Option ℚ
  sodiumMg : Option ℚ
  allergens : Option (List String)
  dietaryTags : Option (List String)
  healthClaims : Option (List String)
  updatedAt : Int
  vendorId : String
  status : String
deriving DecidableEq

/-- Customer health profile columns read by deriveHealthConstraints and the
scorer.  A JS-absent array field behaves exactly like an empty one in
every read site (optional chaining plus length/includes), so plain lists
suffice. -/
structure HealthProfile where
  conditions : List String
  dietGoals : List String
  avoidAllergens : List String
  dietaryRestrictions : List String
deriving DecidableEq

/-- Joined row returned by getCustomerHealthProfile: the customer columns
used by the gate plus the left-joined health profile (null when the
customer has none). -/
structure CustomerRow where
  vendorId : String
  id : String
  status : String
  healthProfile : Option HealthProfile
deriving DecidableEq

/-- HealthConstraints (matchingService.ts lines 13-20). -/
structure HealthConstraints where
  maxSodium : Option ℚ := none
  maxSugar : Option ℚ := none
  minProtein : Option ℚ := none
  minFiber : Option ℚ := none
  avoidAllergens : Option (List String) := none
  requiredDietaryTags : Option (List String) := none
deriving DecidableEq

/-- Nutrition block of a MatchedProduct. -/
structure Nutrition where
  protein : ℚ
  carbs : ℚ
  fat : ℚ
  fiber : ℚ
  sugar : ℚ
  sodium : ℚ
deriving DecidableEq

/-- MatchedProduct (matchingService.ts lines 22-42). -/
structure MatchedProduct where
  id : String
  name : String
  brand : String
  healthScore : ℚ
  compatibilityReasons : List String
  nutritionalFit : ℚ
  allergenSafe : Bool
  dietaryCompliant : Bool
  price : Option ℚ
  servingSize : Option String
  calories : Option ℚ
  nutrition : Nutrition
deriving DecidableEq

/-- deriveHealthConstraints (matchingService.ts lines 140-180): a missing
health profile yields the empty constraint set; otherwise condition- and
goal-driven caps accumulate in source order (later writes win), and the
allergen and dietary-restriction lists carry over only when non-empty. -/
def deriveHealthConstraints (customerData : CustomerRow) : HealthConstraints :=
  match customerData.healthProfile with
  | none => {}
  | some hp =>
    let a0 : HealthConstraints := {}
    let a1 := if hp.conditions.contains "diabetes"
      then { a0 with maxSugar := some 15, minFiber := some 3 } else a0
    let a2 := if hp.conditions.contains "hypertension"
      then { a1 with maxSodium := some 400 } else a1
    let a3 := if hp.conditions.contains "heart_disease"
      then { a2 with maxSodium := some 300, minFiber := some 4 } else a2
    let a4 := if hp.dietGoals.contains "weight_loss"
      then { a3 with minProtein := some 15, minFiber := some 5 } else a3
    let a5 := if !hp.avoidAllergens.isEmpty
      then { a4 with avoidAllergens := some hp.avoidAllergens } else a4
    if !hp.dietaryRestrictions.isEmpty
      then { a5 with requiredDietaryTags := some hp.dietaryRestrictions } else a5

/-- Keys of the constraints object (Object.keys over the populated fields;
the engine reports them as healthConstraintsApplied).  A fixed field
order stands in for JS insertion order; it is a deterministic function
of the same data. -/
def constraintKeys (c : HealthConstraints) : List String :=
  (if c.maxSodium.isSome then ["maxSodium"] else []) ++
  (if c.maxSugar.isSome then ["maxSugar"] else []) ++
  (if c.minProtein.isSome then ["minProtein"] else []) ++
  (if c.minFiber.isSome then ["minFiber"] else []) ++
  (if c.avoidAllergens.isSome then ["avoidAllergens"] else []) ++
  (if c.requiredDietaryTags.isSome then ["requiredDietaryTags"] else [])

/-- WHERE clause of executeHealthAwareQuery: vendor and active status, and
the two hard safety clauses, pushed only when the constraint lists are
non-empty.  A null array column makes the SQL overlap or containment
comparison unknown, which excludes the row (fail closed). -/
def productGate (v : String) (cons : HealthConstraints) (p : Product) : Bool :=
  p.vendorId == v && p.status == "active" &&
  (match cons.avoidAllergens with
   | some (a :: as) =>
     (match p.allergens with
      | some pa => !(overlaps pa (a :: as))
      | none => false)
   | _ => true) &&
  (match cons.requiredDietaryTags with
   | some (t :: ts) =>
     (match p.dietaryTags with
      | some dt => (t :: ts).all (fun x => dt.contains x)
      | none => false)
   | _ => true)

/-- Strict comparison of nullable scores under ORDER BY ... DESC, where SQL
puts nulls first: none is greatest. -/
def nullsFirstLt : Option ℚ → Option ℚ → Prop
  | some x, some y => x < y
  | some _, none => True
  | none, _ => False

instance nullsFirstLtDecidable : DecidableRel nullsFirstLt := fun a b => by
  unfold nullsFirstLt
  match a, b with
  | some x, some y => exact inferInstance
  | some _, none => exact inferInstance
  | none, some _ => exact inferInstance
  | none, none => exact inferInstance

/-- ORDER BY health_score DESC, updated_at DESC of executeHealthAwareQuery
(ties keep snapshot order via sort stability). -/
def dbOrder (a b : Product) : Prop :=
  nullsFirstLt b.healthScore a.healthScore ∨
  (a.healthScore = b.healthScore ∧ b.updatedAt ≤ a.updatedAt)

instance dbOrderDecidable : DecidableRel dbOrder := fun a b => by
  unfold dbOrder; exact inferInstance

/-- executeHealthAwareQuery (matchingService.ts lines 183-235): filter,
order, and pre-fetch min(limit*3, 200) rows. -/
def executeHealthAwareQuery (prods : List Product) (vendorId : String)
    (cons : HealthConstraints) (limit : Nat) : List Product :=
  ((prods.filter (productGate vendorId cons)).insertionSort dbOrder).take
    (min (limit * 3) 200)

/-- Bool test "field > bound" under JS semantics: an absent numeric field
compares false. -/
def oGt (x : Option ℚ) (bound : ℚ) : Bool :=
  match x with | some v => decide (bound < v) | none => false

/-- Bool test "field < bound" under JS semantics: an absent numeric field
compares false. -/
def oLt (x : Option ℚ) (bound : ℚ) : Bool :=
  match x with | some v => decide (v < bound) | none => false

/-- Per-candidate scoring body of scoreAndRankMatches (matchingService.ts
lines 244-331): condition-driven adjustments to the base health score
and to the nutritional fit, reason strings in push order, the two safety
flags, and the clamped output record. -/
def scoreProduct (customerData : CustomerRow) (cons : HealthConstraints)
    (p : Product) : MatchedProduct :=
  let hpConds := match customerData.healthProfile with
    | some hp => hp.conditions
    | none => []
  let hpGoals := match customerData.healthProfile with
    | some hp => hp.dietGoals
    | none => []
  let base := p.healthScore.getD 0
  -- diabetes block
  let adj1 := if hpConds.contains "diabetes" && oGt p.sugarG 15
    then base - (p.sugarG.getD 0 - 15) * 2 else base
  let fit1 : ℚ := if hpConds.contains "diabetes" && oGt p.sugarG 15 then 85 - 15
    else if hpConds.contains "diabetes" && oLt p.sugarG 5 then 85 + 10 else 85
  let rs1 : List String := if hpConds.contains "diabetes" && !(oGt p.sugarG 15) && oLt p.sugarG 5
    then ["Low sugar content - diabetes friendly"] else []
  let adj2 := if hpConds.contains "diabetes" && oGt p.fiberG 5 then adj1 + 5 else adj1
  let fit2 := if hpConds.contains "diabetes" && oGt p.fiberG 5 then fit1 + 8 else fit1
  let rs2 := if hpConds.contains "diabetes" && oGt p.fiberG 5
    then rs1 ++ ["High fiber helps manage blood sugar"] else rs1
  -- hypertension block
  let adj3 := if hpConds.contains "hypertension" && oGt p.sodiumMg 600
    then adj2 - (p.sodiumMg.getD 0 - 600) / 50 else adj2
  let fit3 := if hpConds.contains "hypertension" && oGt p.sodiumMg 600 then fit2 - 20
    else if hpConds.contains "hypertension" && !(oGt p.sodiumMg 600) && oLt p.sodiumMg 200
      then fit2 + 12 else fit2
  let rs3 := if hpConds.contains "hypertension" && !(oGt p.sodiumMg 600) && oLt p.sodiumMg 200
    then rs2 ++ ["Low sodium - heart healthy"] else rs2
  -- weight management block
  let adj4 := if hpGoals.contains "weight_loss" && oGt p.proteinG 20 then adj3 + 3 else adj3
  let fit4 := if hpGoals.contains "weight_loss" && oGt p.proteinG 20 then fit3 + 8 else fit3
  let rs4 := if hpGoals.contains "weight_loss" && oGt p.proteinG 20
    then rs3 ++ ["High protein for satiety"] else rs3
  let fit5 := if hpGoals.contains "weight_loss" && oLt p.calories 150 then fit4 + 5 else fit4
  let rs5 := if hpGoals.contains "weight_loss" && oLt p.calories 150
    then rs4 ++ ["Lower calorie option"] else rs4
  -- health claims bonus
  let claims := p.healthClaims.getD []
  let adj5 := if claims.contains "heart-healthy" then adj4 + 5 else adj4
  let rs6 := if claims.contains "heart-healthy" then rs5 ++ ["Heart-healthy certified"] else rs5
  -- safety flags (optional chaining: an absent product allergen list makes
  -- the includes test undefined, hence falsy, so the flag defaults to safe)
  let allergenSafe := !((cons.avoidAllergens.getD []).any (fun a =>
    match p.allergens with | some pa => pa.contains a | none => false))
  let dietaryCompliant := !((cons.requiredDietaryTags.getD []).any (fun t =>
    !(match p.dietaryTags with | some dt => dt.contains t | none => false)))
  { id := p.id, name := p.name, brand := p.brand.getD "Unknown",
    healthScore := max 0 (min 100 adj5),
    compatibilityReasons := rs6,
    nutritionalFit := max 0 (min 100 fit5),
    allergenSafe := allergenSafe, dietaryCompliant := dietaryCompliant,
    price := p.price, servingSize := p.servingSize, calories := p.calories,
    nutrition := { protein := p.proteinG.getD 0, carbs := p.carbsG.getD 0,
                   fat := p.fatG.getD 0, fiber := p.fiberG.getD 0,
                   sugar := p.sugarG.getD 0, sodium := p.sodiumMg.getD 0 } }

/-- Combined sort key of the final ranking (0.6 health score plus 0.4
nutritional fit). -/
def combinedScore (m : MatchedProduct) : ℚ :=
  m.healthScore * (6 / 10) + m.nutritionalFit * (4 / 10)

/-- Comparator of the final JS sort (descending combined score; the JS sort
is stable, so equal keys keep snapshot order). -/
def combGE (a b : MatchedProduct) : Prop := combinedScore b ≤ combinedScore a

instance combGEDecidable : DecidableRel combGE := fun a b => by
  unfold combGE; exact inferInstance

/-- scoreAndRankMatches (matchingService.ts lines 238-341): score every
candidate, sort by the combined key, and return the top 20 regardless of
the requested limit. -/
def scoreAndRankMatches (products : List Product) (customerData : CustomerRow)
    (cons : HealthConstraints) : List MatchedProduct :=
  ((products.map (scoreProduct customerData cons)).insertionSort combGE).take 20

/-! ### findHealthAwareMatches as a state machine over cache plus snapshot -/

/-- Response record of findHealthAwareMatches (also the payload stored in
the cache: the stored copy carries cacheHit false). -/
structure FhamResult where
  «matches» : List MatchedProduct
  healthConstraintsApplied : List String
  cacheHit : Bool
  generatedAt : Int
deriving DecidableEq

/-- One redis entry written by setex: key, payload, absolute expiry. -/
structure CacheEntry where
  key : String
  payload : FhamResult
  expiresAt : Int
deriving DecidableEq

/-- State read and written by the matching facade: the redis cache, the
current instant, and the customers and products snapshots. -/
structure MatchSt where
  cache : List CacheEntry
  now : Int
  customers : List CustomerRow
  products : List Product
deriving DecidableEq

/-- Cache key (vendor, customer, limit). -/
def mkCacheKey (vendorId customerId : String) (limit : Nat) : String :=
  "health-matches:" ++ vendorId ++ ":" ++ customerId ++ ":" ++ toString limit

/-- redis get: the stored payload when the key exists and is not expired. -/
def cacheLookup (cache : List CacheEntry) (now : Int) (k : String) :
    Option FhamResult :=
  match cache.find? (fun e => e.key == k) with
  | some e => if now < e.expiresAt then some e.payload else none
  | none => none

/-- redis setex: write-through replace of the key. -/
def cacheSet (cache : List CacheEntry) (k : String) (payload : FhamResult)
    (expiresAt : Int) : List CacheEntry :=
  { key := k, payload := payload, expiresAt := expiresAt } ::
    cache.filter (fun e => !(e.key == k))

/-- getCustomerHealthProfile (matchingService.ts lines 109-137): the active
customer of this vendor together with its left-joined health profile. -/
def getCustomerHealthProfile (st : MatchSt) (vendorId customerId : String) :
    Option CustomerRow :=
  st.customers.find? (fun r =>
    r.vendorId == vendorId && r.id == customerId && r.status == "active")

/-- findHealthAwareMatches (matchingService.ts lines 45-106): cache check,
profile fetch (a missing customer throws), constraint derivation, query,
scoring, response assembly, and a 900-second setex. -/
def findHealthAwareMatches (st : MatchSt) (vendorId customerId : String)
    (limit : Nat) : Except String FhamResult × MatchSt :=
  let key := mkCacheKey vendorId customerId limit
  match cacheLookup st.cache st.now key with
  | some payload => (Except.ok { payload with cacheHit := true }, st)
  | none =>
    match getCustomerHealthProfile st vendorId customerId with
    | none => (Except.error "Customer not found or no health profile", st)
    | some cust =>
      let constraints := deriveHealthConstraints cust
      let fetched := executeHealthAwareQuery st.products vendorId constraints limit
      let ranked := scoreAndRankMatches fetched cust constraints
      let result : FhamResult :=
        { «matches» := ranked, healthConstraintsApplied := constraintKeys constraints,
          cacheHit := false, generatedAt := st.now }
      (Except.ok result, { st with cache := cacheSet st.cache key result (st.now + 900) })

/-- Batches of five customers (the bounded-concurrency chunking of
batchHealthMatching). -/
def toBatches : List String → List (List String)
  | [] => []
  | x :: xs => (x :: xs.take 4) :: toBatches (xs.drop 4)
termination_by l => l.length
decreasing_by
  simp only [List.length_cons, List.length_drop]
  omega

/-- One customer of a batch: a success appends a map entry, a failure is
only logged (console.warn) and leaves the map unchanged. -/
def batchStep (vendorId : String) (limit : Nat)
    (acc : List (String × List MatchedProduct) × MatchSt) (customerId : String) :
    List (String × List MatchedProduct) × MatchSt :=
  match findHealthAwareMatches acc.2 vendorId customerId limit with
  | (Except.ok r, st') => (acc.1 ++ [(customerId, r.«matches»)], st')
  | (Except.error _, st') => (acc.1, st')

/-- batchHealthMatching (matchingService.ts lines 344-374): fold the batches
of five, folding each batch across its customers. -/
def batchHealthMatching (st : MatchSt) (vendorId : String)
    (customerIds : List String) (limit : Nat) :
    List (String × List MatchedProduct) × MatchSt :=
  (toBatches customerIds).foldl
    (fun acc batch => batch.foldl (batchStep vendorId limit) acc) ([], st)

/-- clearCustomerCache (matchingService.ts lines 377-385): delete every key
of this vendor and customer, any limit (the trailing glob star). -/
def clearCustomerCache (st : MatchSt) (vendorId customerId : String) : MatchSt :=
  { st with cache := st.cache.filter (fun e =>
      !(strStarts e.key ("health-matches:" ++ vendorId ++ ":" ++ customerId ++ ":"))) }

/-- Sequence of customers whose per-customer pipeline succeeds, threading
the evolving state exactly like the batch fold: the keys the map will
hold. -/
def expectedKeys (st : MatchSt) (vendorId : String) (limit : Nat) :
    List String → List String
  | [] => []
  | c :: cs =>
    match findHealthAwareMatches st vendorId c limit with
    | (Except.ok _, st') => c :: expectedKeys st' vendorId limit cs
    | (Except.error _, st') => expectedKeys st' vendorId limit cs

/-! ### Concrete snapshots used by the counterexamples and witnesses -/

/-- Constant-zero feed score (placeholder score function for concrete
evaluations; safety and membership facts do not depend on scores). -/
def zeroScore : Recipe → ℚ := fun _ => 0

/-- Published US recipe with everything empty except the given id and
optional ingredient names. -/
def plainRecipe (i : Nat) (ings : Option (List String)) : Recipe :=
  { id := i, status := "published", marketCountry := "US", dietTags := [],
    allergens := [], ingredients := ings, sugarG := none, sodiumMg := none,
    saturatedFatG := none, proteinG := none, fiberG := none, calories := none,
    cuisines := [], updatedAt := 0 }

/-- Preferences with every set empty. -/
def emptyPrefs : StrictPrefs :=
  { diets := [], allergens := [], cuisines := [], dislikes := [], conditions := [] }

/-- Preferences whose only content is a disliked-ingredient entry. -/
def c1Prefs : StrictPrefs :=
  { diets := [], allergens := [], cuisines := [], dislikes := ["peanut"], conditions := [] }

/-- Catalog holding only a peanut-butter recipe, nobody has viewed anything. -/
def c1Env : FeedEnv :=
  { recipes := [plainRecipe 1 (some ["peanut butter"])],
    viewedRecently := fun _ => false, cooked30d := fun _ => 0,
    scoreStrict := zeroScore, scoreBalanced := zeroScore }

/-- Catalog holding one clean recipe that the subject viewed within the
last 48 hours. -/
def c9Env : FeedEnv :=
  { recipes := [plainRecipe 2 none],
    viewedRecently := fun _ => true, cooked30d := fun _ => 0,
    scoreStrict := zeroScore, scoreBalanced := zeroScore }

/-- Catalog holding one clean recipe, nothing viewed recently. -/
def c9wEnv : FeedEnv :=
  { recipes := [plainRecipe 3 none],
    viewedRecently := fun _ => false, cooked30d := fun _ => 0,
    scoreStrict := zeroScore, scoreBalanced := zeroScore }

/-- Active product of vendor v with the given id and health score and every
other column null. -/
def mkPlainProduct (i : String) (hs : Option ℚ) : Product :=
  { id := i, name := i, brand := none, healthScore := hs, price := none,
    servingSize := none, calories := none, proteinG := none, carbsG := none,
    fatG := none, fiberG := none, sugarG := none, sodiumMg := none,
    allergens := none, dietaryTags := none, healthClaims := none,
    updatedAt := 0, vendorId := "v", status := "active" }

/-- Active customer of vendor v with no health profile. -/
def noProfileCust : CustomerRow :=
  { vendorId := "v", id := "c", status := "active", healthProfile := none }

/-- Three safe products, one profile-less customer, cold cache. -/
def c2St : MatchSt :=
  { cache := [], now := 0, customers := [noProfileCust],
    products := [mkPlainProduct "p1" none, mkPlainProduct "p2" none,
                 mkPlainProduct "p3" none] }

/-- Tiny feed environment of the quota witness. -/
def c2wEnv : FeedEnv :=
  { recipes := [plainRecipe 4 none],
    viewedRecently := fun _ => false, cooked30d := fun _ => 0,
    scoreStrict := zeroScore, scoreBalanced := zeroScore }

/-- Two products equal in every ranked attribute; the snapshot lists id b
before id a. -/
def c5pb : Product := mkPlainProduct "b" (some 50)

/-- Companion product of the tie-break counterexample, id a. -/
def c5pa : Product := mkPlainProduct "a" (some 50)

/-- State of the tie-break counterexample. -/
def c5St : MatchSt :=
  { cache := [], now := 0, customers := [noProfileCust], products := [c5pb, c5pa] }

/-- Scored output row of c5pb. -/
def c5mb : MatchedProduct :=
  { id := "b", name := "b", brand := "Unknown", healthScore := 50,
    compatibilityReasons := [], nutritionalFit := 85, allergenSafe := true,
    dietaryCompliant := true, price := none, servingSize := none, calories := none,
    nutrition := { protein := 0, carbs := 0, fat := 0, fiber := 0, sugar := 0, sodium := 0 } }

/-- Scored output row of c5pa. -/
def c5ma : MatchedProduct :=
  { id := "a", name := "a", brand := "Unknown", healthScore := 50,
    compatibilityReasons := [], nutritionalFit := 85, allergenSafe := true,
    dietaryCompliant := true, price := none, servingSize := none, calories := none,
    nutrition := { protein := 0, carbs := 0, fat := 0, fiber := 0, sugar := 0, sodium := 0 } }

/-- Customer whose only constraint source is one avoided allergen. -/
def c4Cust : CustomerRow :=
  { vendorId := "v", id := "c", status := "active",
    healthProfile := some { conditions := [], dietGoals := [],
                            avoidAllergens := ["peanut"], dietaryRestrictions := [] } }

/-- Product of the fail-closed witness: allergen field present but empty. -/
def c4pB : Product := { mkPlainProduct "q" (some 50) with allergens := some [] }

/-- Scored output row of c4pB under the peanut-avoiding profile. -/
def c4mB : MatchedProduct :=
  { id := "q", name := "q", brand := "Unknown", healthScore := 50,
    compatibilityReasons := [], nutritionalFit := 85, allergenSafe := true,
    dietaryCompliant := true, price := none, servingSize := none, calories := none,
    nutrition := { protein := 0, carbs := 0, fat := 0, fiber := 0, sugar := 0, sodium := 0 } }

/-- State of the fail-closed witness with one allergen-labelled product. -/
def c4StB : MatchSt :=
  { cache := [], now := 0, customers := [c4Cust], products := [c4pB] }

/-- Result row computed by the fail-closed witness call. -/
def c4rB : FhamResult :=
  { «matches» := [c4mB], healthConstraintsApplied := ["avoidAllergens"],
    cacheHit := false, generatedAt := 0 }

/-- Customer with an empty (but present) health profile. -/
def c8Cust : CustomerRow :=
  { vendorId := "v", id := "c", status := "active",
    healthProfile := some { conditions := [], dietGoals := [],
                            avoidAllergens := [], dietaryRestrictions := [] } }

/-- Cold-cache state of the cache round-trip witness. -/
def c8St : MatchSt :=
  { cache := [], now := 0, customers := [c8Cust], products := [] }

/-- Payload the first witness call computes and stores. -/
def c8r1 : FhamResult :=
  { «matches» := [], healthConstraintsApplied := [], cacheHit := false, generatedAt := 0 }

/-- State after the first witness call (payload cached until instant 900). -/
def c8St1 : MatchSt :=
  { cache := [{ key := mkCacheKey "v" "c" 5, payload := c8r1, expiresAt := 900 }],
    now := 0, customers := [c8Cust], products := [] }

/-- State with no customers at all (every batch subject fails). -/
def c3St : MatchSt :=
  { cache := [], now := 0, customers := [], products := [] }

/-- Single product of the clamping and purity witnesses. -/
def c10p : Product := mkPlainProduct "p" (some 50)

/-! ### Result-level ordering relations (for the tie-break analysis) -/

/-- Ordering the spec asserts on returned feed rows: score DESC, then the
last-updated instant DESC, then id ASC. -/
def feedResultLE : FeedResult → FeedResult → Prop :=
  lex3 FeedResult.score (fun fr => fr.recipe.updatedAt) (fun fr => fr.recipe.id)

instance lex3IsTotal {α β γ δ : Type} [LinearOrder β] [LinearOrder γ] [LinearOrder δ]
    (f : α → β) (g : α → γ) (h : α → δ) : IsTotal α (lex3 f g h) := by
  constructor
  intro a b
  rcases lt_trichotomy (f a) (f b) with hf | hf | hf
  · exact Or.inr (Or.inl hf)
  · rcases lt_trichotomy (g a) (g b) with hg | hg | hg
    · exact Or.inr (Or.inr ⟨hf.symm, Or.inl hg⟩)
    · rcases le_total (h a) (h b) with hh | hh
      · exact Or.inl (Or.inr ⟨hf, Or.inr ⟨hg, hh⟩⟩)
      · exact Or.inr (Or.inr ⟨hf.symm, Or.inr ⟨hg.symm, hh⟩⟩)
    · exact Or.inl (Or.inr ⟨hf, Or.inl hg⟩)
  · exact Or.inl (Or.inl hf)

instance lex3IsTrans {α β γ δ : Type} [LinearOrder β] [LinearOrder γ] [LinearOrder δ]
    (f : α → β) (g : α → γ) (h : α → δ) : IsTrans α (lex3 f g h) := by
  constructor
  intro a b c hab hbc
  rcases hab with hf1 | ⟨he1, hrest1⟩
  · rcases hbc with hf2 | ⟨he2, _⟩
    · exact Or.inl (lt_trans hf2 hf1)
    · exact Or.inl (he2 ▸ hf1)
  · rcases hbc with hf2 | ⟨he2, hrest2⟩
    · exact Or.inl (he1.symm ▸ hf2)
    · rcases hrest1 with hg1 | ⟨ge1, hh1⟩
      · rcases hrest2 with hg2 | ⟨ge2, _⟩
        · exact Or.inr ⟨he1.trans he2, Or.inl (lt_trans hg2 hg1)⟩
        · exact Or.inr ⟨he1.trans he2, Or.inl (ge2 ▸ hg1)⟩
      · rcases hrest2 with hg2 | ⟨ge2, hh2⟩
        · exact Or.inr ⟨he1.trans he2, Or.inl (ge1.symm ▸ hg2)⟩
        · exact Or.inr ⟨he1.trans he2, Or.inr ⟨ge1.trans ge2, le_trans hh1 hh2⟩⟩

instance combGEIsTotal : IsTotal MatchedProduct combGE :=
  ⟨fun a b => le_total (combinedScore b) (combinedScore a)⟩

instance combGEIsTrans : IsTrans MatchedProduct combGE :=
  ⟨fun _ _ _ hab hbc => le_trans hbc hab⟩

/-! ## Helper lemmas -/

theorem dislikeOkB_nil (r : Recipe) : dislikeOkB r [] = true := rfl

theorem condOkB_nil (r : Recipe) : condOkB r [] = true := rfl

theorem safe_drop_conditions (r : Recipe) (d a dl c : List String)
    (h : recipe_is_safe_for_profile r d a dl c = true) :
    recipe_is_safe_for_profile r d a dl [] = true := by
  unfold recipe_is_safe_for_profile at h ⊢
  simp only [Bool.and_eq_true] at h ⊢
  exact ⟨h.1, condOkB_nil r⟩

theorem safe_drop_dislikes (r : Recipe) (d a : List String) (dl : List String)
    (h : recipe_is_safe_for_profile r d a dl [] = true) :
    recipe_is_safe_for_profile r d a [] [] = true := by
  unfold recipe_is_safe_for_profile at h ⊢
  simp only [Bool.and_eq_true] at h ⊢
  exact ⟨⟨h.1.1, dislikeOkB_nil r⟩, condOkB_nil r⟩

theorem pass1Gate_imp_pass2 (env : FeedEnv) (prefs : StrictPrefs) (r : Recipe)
    (h : pass1Gate env prefs r = true) : pass2Gate prefs r = true := by
  unfold pass1Gate at h
  unfold pass2Gate
  simp only [Bool.and_eq_true] at h ⊢
  exact ⟨h.1.1, safe_drop_conditions r _ _ _ _ h.1.2⟩

theorem pass2Gate_imp_pass3 (prefs : StrictPrefs) (r : Recipe)
    (h : pass2Gate prefs r = true) : pass3Gate prefs r = true := by
  unfold pass2Gate at h
  unfold pass3Gate
  simp only [Bool.and_eq_true] at h ⊢
  exact ⟨h.1, safe_drop_dislikes r _ _ _ h.2⟩

theorem mem_of_mem_take_sort {α : Type} (rel : α → α → Prop) [DecidableRel rel]
    (l : List α) (n : Nat) {x : α} (hx : x ∈ (l.insertionSort rel).take n) : x ∈ l :=
  (List.perm_insertionSort rel l).mem_iff.mp (List.take_subset n _ hx)

theorem nodupIds_filter (l : List Recipe) (p : Recipe → Bool)
    (h : (l.map Recipe.id).Nodup) : ((l.filter p).map Recipe.id).Nodup :=
  h.sublist (List.Sublist.map _ (List.filter_sublist l))

theorem length_filter_mono (l : List Recipe) (p q : Recipe → Bool)
    (h : ∀ r, p r = true → q r = true) :
    (l.filter p).length ≤ (l.filter q).length := by
  have h1 : (l.filter q).filter p = l.filter p := by
    rw [List.filter_filter]
    apply List.filter_congr
    intro x _
    cases hpx : p x with
    | false => simp
    | true => simp [h x hpx]
  calc (l.filter p).length = ((l.filter q).filter p).length := by rw [h1]
    _ ≤ (l.filter q).length := List.length_filter_le _ _

theorem length_filter_excl (l : List Recipe) (p : Recipe → Bool) (ex : List Nat)
    (hnd : (l.map Recipe.id).Nodup) (hexnd : ex.Nodup)
    (hreal : ∀ i ∈ ex, ∃ r, r ∈ l ∧ p r = true ∧ r.id = i) :
    (l.filter (fun r => p r && !(ex.contains r.id))).length
      = (l.filter p).length - ex.length := by
  have h1 : l.filter (fun r => p r && !(ex.contains r.id))
      = (l.filter p).filter (fun r => !(ex.contains r.id)) := by
    rw [List.filter_filter]
    apply List.filter_congr
    intro x _
    rw [Bool.and_comm]
  have hmnd : ((l.filter p).map Recipe.id).Nodup := nodupIds_filter l p hnd
  have hperm : (((l.filter p).filter (fun r => ex.contains r.id)).map Recipe.id).Perm ex := by
    rw [List.perm_ext_iff_of_nodup (nodupIds_filter (l.filter p) _ hmnd) hexnd]
    intro i
    constructor
    · intro hi
      rcases List.mem_map.mp hi with ⟨r, hr, hid⟩
      have hc := (List.mem_filter.mp hr).2
      have hc' : r.id ∈ ex := by simpa using hc
      rw [hid] at hc'
      exact hc'
    · intro hi
      rcases hreal i hi with ⟨r, hrl, hpr, hid⟩
      refine List.mem_map.mpr ⟨r, List.mem_filter.mpr ⟨List.mem_filter.mpr ⟨hrl, hpr⟩, ?_⟩, hid⟩
      simp [hid, hi]
  have hlen : ((l.filter p).filter (fun r => ex.contains r.id)).length = ex.length := by
    have := hperm.length_eq
    rwa [List.length_map] at this
  have hsplit := List.length_eq_length_filter_add
    (l := l.filter p) (fun r => ex.contains r.id)
  simp only [] at hsplit
  rw [h1]
  omega

/-! ## C7 -/

/-- C7: a subject with a missing profile (or missing health profile) gets
the widest-net constraint set: deriveHealthConstraints yields no caps and
no hard lists, getStrictPrefs yields all-empty preference sets, the feed
safety gate passes every recipe under empty sets, and the enterprise hard
gate reduces to the vendor and status conditions alone, so no otherwise
eligible candidate is excluded. -/
theorem C7_missing_profile_widest_net :
    (∀ v i s, deriveHealthConstraints { vendorId := v, id := i, status := s, healthProfile := none }
        = ({} : HealthConstraints))
    ∧ getStrictPrefs none none = emptyPrefs
    ∧ (∀ r : Recipe, recipe_is_safe_for_profile r [] [] [] [] = true)
    ∧ (∀ v (p : Product), productGate v ({} : HealthConstraints) p
        = (p.vendorId == v && p.status == "active")) := by
  refine ⟨fun v i s => rfl, rfl, fun r => rfl, fun v p => ?_⟩
  unfold productGate
  simp

/-! ## C10 -/

/-- C10: every MatchedProduct the enterprise ranking returns carries a
healthScore and a nutritionalFit clamped into the closed interval 0..100,
whatever the product, profile and constraint inputs. -/
theorem C10_scores_clamped (ps : List Product) (cust : CustomerRow)
    (cons : HealthConstraints) (m : MatchedProduct)
    (hm : m ∈ scoreAndRankMatches ps cust cons) :
    0 ≤ m.healthScore ∧ m.healthScore ≤ 100 ∧
      0 ≤ m.nutritionalFit ∧ m.nutritionalFit ≤ 100 := by
  unfold scoreAndRankMatches at hm
  have hmem : m ∈ ps.map (scoreProduct cust cons) :=
    mem_of_mem_take_sort combGE _ 20 hm
  rcases List.mem_map.mp hmem with ⟨p, _, rfl⟩
  unfold scoreProduct
  dsimp only
  exact ⟨le_max_left _ _, max_le (by norm_num) (min_le_left _ _),
    le_max_left _ _, max_le (by norm_num) (min_le_left _ _)⟩

/-- Witness: the clamping theorem applied to a concrete one-product call. -/
theorem C10_scores_clamped_witness :
    0 ≤ (scoreProduct noProfileCust {} c10p).healthScore ∧
      (scoreProduct noProfileCust {} c10p).healthScore ≤ 100 ∧
      0 ≤ (scoreProduct noProfileCust {} c10p).nutritionalFit ∧
      (scoreProduct noProfileCust {} c10p).nutritionalFit ≤ 100 :=
  C10_scores_clamped [c10p] noProfileCust {} (scoreProduct noProfileCust {} c10p)
    (by decide)

/-! ## C6 -/

/-- C6: the score, ordering and reason strings are a pure function of the
inputs: equal candidate snapshot, profile and constraints give an equal
response, and every returned entry is exactly scoreProduct of one input
candidate, so a score never depends on sibling candidates, hidden state
or randomness. -/
theorem C6_score_pure_function (ps₁ ps₂ : List Product) (cust₁ cust₂ : CustomerRow)
    (cons₁ cons₂ : HealthConstraints) (hps : ps₁ = ps₂) (hc : cust₁ = cust₂)
    (hk : cons₁ = cons₂) :
    scoreAndRankMatches ps₁ cust₁ cons₁ = scoreAndRankMatches ps₂ cust₂ cons₂
    ∧ ∀ m ∈ scoreAndRankMatches ps₁ cust₁ cons₁,
        ∃ p, p ∈ ps₁ ∧ m = scoreProduct cust₁ cons₁ p := by
  subst hps; subst hc; subst hk
  refine ⟨rfl, fun m hm => ?_⟩
  unfold scoreAndRankMatches at hm
  have hmem : m ∈ ps₁.map (scoreProduct cust₁ cons₁) :=
    mem_of_mem_take_sort combGE _ 20 hm
  rcases List.mem_map.mp hmem with ⟨p, hp, hEq⟩
  exact ⟨p, hp, hEq.symm⟩

/-- Witness: purity applied to a concrete one-product invocation. -/
theorem C6_score_pure_function_witness :
    scoreAndRankMatches [c10p] noProfileCust {} = scoreAndRankMatches [c10p] noProfileCust {}
    ∧ ∀ m ∈ scoreAndRankMatches [c10p] noProfileCust {},
        ∃ p, p ∈ [c10p] ∧ m = scoreProduct noProfileCust {} p :=
  C6_score_pure_function [c10p] [c10p] noProfileCust noProfileCust {} {} rfl rfl rfl

/-! ## C3 -/

theorem toBatches_foldl {σ : Type} (f : σ → String → σ) :
    ∀ (l : List String) (s : σ),
      (toBatches l).foldl (fun acc batch => batch.foldl f acc) s = l.foldl f s := by
  intro l
  induction l using toBatches.induct with
  | case1 => intro s; rw [toBatches]; rfl
  | case2 x xs ih =>
    intro s
    rw [toBatches]
    simp only [List.foldl_cons]
    rw [ih]
    conv_rhs => rw [← List.take_append_drop 4 xs]
    rw [List.foldl_append]

theorem batch_keys_aux (vendorId : String) (limit : Nat) :
    ∀ (cids : List String) (acc : List (String × List MatchedProduct)) (st : MatchSt),
      ((cids.foldl (batchStep vendorId limit) (acc, st)).1).map Prod.fst
        = acc.map Prod.fst ++ expectedKeys st vendorId limit cids := by
  intro cids
  induction cids with
  | nil => intro acc st; simp [expectedKeys]
  | cons c cs ih =>
    intro acc st
    simp only [List.foldl_cons, expectedKeys]
    cases hcall : findHealthAwareMatches st vendorId c limit with
    | mk res st' =>
      cases res with
      | ok r =>
        have hstep : batchStep vendorId limit (acc, st) c
            = (acc ++ [(c, r.«matches»)], st') := by
          unfold batchStep
          rw [hcall]
        rw [hstep, ih]
        simp
      | error e =>
        have hstep : batchStep vendorId limit (acc, st) c = (acc, st') := by
          unfold batchStep
          rw [hcall]
        rw [hstep, ih]

/-- C3 amended: the batch call is total (it returns a map, never an
exception) and its map holds exactly the subjects whose per-subject
pipeline succeeded, in order; a failed subject is logged and omitted,
without aborting the siblings, but it gets no error entry in the map. -/
theorem C3_amended_batch_map (st : MatchSt) (vendorId : String)
    (customerIds : List String) (limit : Nat) :
    ((batchHealthMatching st vendorId customerIds limit).1).map Prod.fst
      = expectedKeys st vendorId limit customerIds := by
  unfold batchHealthMatching
  rw [toBatches_foldl]
  simpa using batch_keys_aux vendorId limit customerIds [] st

/-- C3 counterexample: a batch over one subject whose profile lookup fails
returns an empty map: the failed subject has no error entry (the claim
that every failed subject has an error entry in the returned map is
false), while the per-subject pipeline really does fail. -/
theorem C3_counterexample_failed_subject_missing :
    (batchHealthMatching c3St "v" ["alice"] 10).1 = []
    ∧ (findHealthAwareMatches c3St "v" "alice" 10).1
        = Except.error "Customer not found or no health profile" := by
  constructor
  · unfold batchHealthMatching
    simp only [toBatches, List.take_nil, List.drop_nil, List.foldl_cons, List.foldl_nil]
    have hstep : batchStep "v" 10 ([], c3St) "alice"
        = ([], c3St) := by
      unfold batchStep
      rfl
    rw [hstep]
  · rfl

/-! ## C4 -/

/-- C4: when the derived constraint set excludes at least one allergen,
every match the engine computes (cache miss path) comes from a candidate
whose allergen field is present: a candidate with an absent (null)
allergen field is excluded by the query gate (the SQL overlap comparison
is unknown on null, which fails closed), so it can neither be included
nor receive an allergen-safe flag in the response. -/
theorem C4_absent_allergens_fail_closed (st : MatchSt) (v c : String) (l : Nat)
    (cust : CustomerRow) (r : FhamResult) (a : String) (as : List String)
    (hmiss : cacheLookup st.cache st.now (mkCacheKey v c l) = none)
    (hcust : getCustomerHealthProfile st v c = some cust)
    (hall : (deriveHealthConstraints cust).avoidAllergens = some (a :: as))
    (hres : (findHealthAwareMatches st v c l).1 = Except.ok r) :
    ∀ m ∈ r.«matches», ∃ p, p ∈ st.products ∧ p.allergens ≠ none
      ∧ m = scoreProduct cust (deriveHealthConstraints cust) p := by
  simp only [findHealthAwareMatches, hmiss, hcust] at hres
  obtain rfl := (Except.ok.inj hres).symm
  intro m hm
  have hmem : m ∈ (executeHealthAwareQuery st.products v (deriveHealthConstraints cust) l).map
      (scoreProduct cust (deriveHealthConstraints cust)) :=
    mem_of_mem_take_sort combGE _ 20 hm
  rcases List.mem_map.mp hmem with ⟨p, hp, hEq⟩
  unfold executeHealthAwareQuery at hp
  have hpf : p ∈ st.products.filter (productGate v (deriveHealthConstraints cust)) :=
    mem_of_mem_take_sort dbOrder _ _ hp
  obtain ⟨hpl, hgate⟩ := List.mem_filter.mp hpf
  refine ⟨p, hpl, ?_, hEq.symm⟩
  intro hnone
  unfold productGate at hgate
  rw [hall, hnone] at hgate
  simp at hgate

/-- Witness: the fail-closed theorem applied to a concrete cold-cache call
of a customer who avoids peanut, instantiated at the one returned match. -/
theorem C4_absent_allergens_fail_closed_witness :
    ∃ p, p ∈ c4StB.products ∧ p.allergens ≠ none
      ∧ c4mB = scoreProduct c4Cust (deriveHealthConstraints c4Cust) p :=
  C4_absent_allergens_fail_closed c4StB "v" "c" 3 c4Cust c4rB "peanut" []
    (by decide) (by decide) (by decide) rfl c4mB (by decide)

/-! ## C1 -/

/-- C1: evaluation of the feed at the failing input.  The subject dislikes
peanut; the only recipe has a peanut-butter ingredient, so the safety
gate rejects it (dislikeOkB is false) and both the strict and the
balanced pass return nothing; yet the popularity fallback, which calls
recipe_is_safe_for_profile with an empty dislikes array, returns exactly
that recipe.  This contradicts the claim (and the comment over pass 3 of
feed.ts, which says allergens and dislikes stay hard there). -/
theorem C1_fallback_returns_disliked :
    (getPersonalizedFeed c1Env (some { diets := [], allergens := [], cuisines := [] })
        (some { dislikes := ["peanut"], conditions := [] }) 1 0).map (fun fr => fr.recipe.id)
      = [1]
    ∧ (getPersonalizedFeed c1Env (some { diets := [], allergens := [], cuisines := [] })
        (some { dislikes := ["peanut"], conditions := [] }) 1 0).map (fun fr => fr.reasons)
      = [["Popular this month"]]
    ∧ dislikeOkB (plainRecipe 1 (some ["peanut butter"])) ["peanut"] = false
    ∧ strictPass c1Env c1Prefs 1 0 = []
    ∧ balancedPass c1Env c1Prefs 1 [] = [] := by
  exact ⟨by decide, by decide, by decide, by decide, by decide⟩

/-! ## C9 -/

/-- C9: the 48-hour recently-viewed exclusion binds only in the strict
pass: no strict-pass row is recently viewed (first conjunct, for every
environment and preferences), while the balanced and fallback passes do
not consult the view history, so a recently-viewed recipe can appear in
the returned feed whenever the strict tier underfills (second conjunct:
a concrete subject whose only - recently viewed - recipe fills the page
from the balanced pass). -/
theorem C9_recent_view_exclusion_strict_only :
    (∀ (env : FeedEnv) (prefs : StrictPrefs) (limit offset : Nat) (fr : FeedResult),
        fr ∈ strictPass env prefs limit offset → env.viewedRecently fr.recipe.id = false)
    ∧ ((getPersonalizedFeed c9Env (some { diets := [], allergens := [], cuisines := [] })
          (some { dislikes := [], conditions := [] }) 1 0).map (fun fr => fr.recipe.id) = [2]
        ∧ c9Env.viewedRecently 2 = true
        ∧ strictPass c9Env emptyPrefs 1 0 = []) := by
  constructor
  · intro env prefs limit offset fr hfr
    unfold strictPass at hfr
    rcases List.mem_map.mp hfr with ⟨r, hr, rfl⟩
    have hr2 : r ∈ (sortFeed env.scoreStrict (env.recipes.filter (pass1Gate env prefs))).drop
        offset := List.take_subset _ _ hr
    have hr3 : r ∈ sortFeed env.scoreStrict (env.recipes.filter (pass1Gate env prefs)) :=
      List.drop_subset _ _ hr2
    have hr4 : r ∈ env.recipes.filter (pass1Gate env prefs) := by
      unfold sortFeed at hr3
      exact (List.perm_insertionSort _ _).mem_iff.mp hr3
    have hgate := (List.mem_filter.mp hr4).2
    unfold pass1Gate at hgate
    simp only [Bool.and_eq_true] at hgate
    simpa using hgate.2
  · exact ⟨by decide, by decide, by decide⟩

/-- Witness: the strict-pass exclusion applied to a concrete member of a
concrete strict page. -/
theorem C9_recent_view_exclusion_strict_only_witness :
    c9wEnv.viewedRecently 3 = false :=
  C9_recent_view_exclusion_strict_only.1 c9wEnv emptyPrefs 1 0
    { recipe := plainRecipe 3 none, score := 0, reasons := ["Popular this week"] }
    (by decide)

/-! ## C8 -/

theorem takesLead_append (a b : List Char) : takesLead a (a ++ b) = true := by
  induction a with
  | nil => rfl
  | cons x xs ih => simp [takesLead, ih]

theorem strStarts_append (pat rest : String) : strStarts (pat ++ rest) pat = true := by
  unfold strStarts
  rw [String.data_append]
  exact takesLead_append _ _

theorem cacheLookup_none_of_all (cache : List CacheEntry) (t : Int) (k : String)
    (h : ∀ e ∈ cache, (e.key == k) = false) : cacheLookup cache t k = none := by
  unfold cacheLookup
  have : cache.find? (fun e => e.key == k) = none := by
    rw [List.find?_eq_none]
    intro e he
    simp [h e he]
  rw [this]

theorem fham_miss_eval (st : MatchSt) (v c : String) (l : Nat) (cust : CustomerRow)
    (hmiss : cacheLookup st.cache st.now (mkCacheKey v c l) = none)
    (hcust : getCustomerHealthProfile st v c = some cust) :
    (findHealthAwareMatches st v c l).1 = Except.ok
      { «matches» := scoreAndRankMatches
          (executeHealthAwareQuery st.products v (deriveHealthConstraints cust) l)
          cust (deriveHealthConstraints cust),
        healthConstraintsApplied := constraintKeys (deriveHealthConstraints cust),
        cacheHit := false, generatedAt := st.now } := by
  simp only [findHealthAwareMatches, hmiss, hcust]

/-- C8: the cache round trip.  After a stored (cache-miss, successful)
call, an identical call within the TTL window reports a cache hit and
returns the stored payload unchanged apart from the hit flag; and after
clearCustomerCache for that tenant and subject, the identical call misses
(cacheHit false) and recomputes the ranking from the snapshot. -/
theorem C8_cache_roundtrip_and_invalidate (st : MatchSt) (v c : String) (l : Nat)
    (cust : CustomerRow) (r1 : FhamResult) (st1 : MatchSt) (t2 : Int)
    (hmiss : cacheLookup st.cache st.now (mkCacheKey v c l) = none)
    (hcust : getCustomerHealthProfile st v c = some cust)
    (hcall : findHealthAwareMatches st v c l = (Except.ok r1, st1))
    (ht2 : t2 < st.now + 900) :
    r1.cacheHit = false
    ∧ (findHealthAwareMatches { st1 with now := t2 } v c l).1
        = Except.ok { r1 with cacheHit := true }
    ∧ (findHealthAwareMatches { clearCustomerCache st1 v c with now := t2 } v c l).1
        = Except.ok
            { «matches» := scoreAndRankMatches
                (executeHealthAwareQuery st.products v (deriveHealthConstraints cust) l)
                cust (deriveHealthConstraints cust),
              healthConstraintsApplied := constraintKeys (deriveHealthConstraints cust),
              cacheHit := false, generatedAt := t2 } := by
  simp only [findHealthAwareMatches, hmiss, hcust] at hcall
  injection hcall with h1 h2
  obtain rfl := (Except.ok.inj h1).symm
  subst h2
  refine ⟨rfl, ?_, ?_⟩
  · -- repeat within TTL: the fresh entry is found and unexpired
    have hl : cacheLookup
        (cacheSet st.cache (mkCacheKey v c l)
          { «matches» := scoreAndRankMatches
              (executeHealthAwareQuery st.products v (deriveHealthConstraints cust) l)
              cust (deriveHealthConstraints cust),
            healthConstraintsApplied := constraintKeys (deriveHealthConstraints cust),
            cacheHit := false, generatedAt := st.now }
          (st.now + 900)) t2 (mkCacheKey v c l)
        = some
          { «matches» := scoreAndRankMatches
              (executeHealthAwareQuery st.products v (deriveHealthConstraints cust) l)
              cust (deriveHealthConstraints cust),
            healthConstraintsApplied := constraintKeys (deriveHealthConstraints cust),
            cacheHit := false, generatedAt := st.now } := by
      unfold cacheLookup cacheSet
      rw [List.find?_cons_of_pos _ (by simp)]
      simp [ht2]
    simp only [findHealthAwareMatches]
    rw [hl]
  · -- invalidate then repeat: the key is gone, so the call recomputes
    have hnone : cacheLookup
        ((cacheSet st.cache (mkCacheKey v c l)
            { «matches» := scoreAndRankMatches
                (executeHealthAwareQuery st.products v (deriveHealthConstraints cust) l)
                cust (deriveHealthConstraints cust),
              healthConstraintsApplied := constraintKeys (deriveHealthConstraints cust),
              cacheHit := false, generatedAt := st.now }
            (st.now + 900)).filter (fun e =>
              !(strStarts e.key ("health-matches:" ++ v ++ ":" ++ c ++ ":"))))
        t2 (mkCacheKey v c l) = none := by
      apply cacheLookup_none_of_all
      intro e he
      obtain ⟨hin, hpass⟩ := List.mem_filter.mp he
      rcases List.mem_cons.mp hin with h | h
      · exfalso
        subst h
        have : strStarts (mkCacheKey v c l) ("health-matches:" ++ v ++ ":" ++ c ++ ":")
            = true := strStarts_append _ (toString l)
        simp only [this] at hpass
        exact Bool.false_ne_true (by simp at hpass)
      · have := (List.mem_filter.mp h).2
        simpa using this
    exact fham_miss_eval _ v c l cust hnone hcust

/-- Witness: the round trip applied to a concrete cold-cache call. -/
theorem C8_cache_roundtrip_and_invalidate_witness :
    c8r1.cacheHit = false
    ∧ (findHealthAwareMatches { c8St1 with now := 10 } "v" "c" 5).1
        = Except.ok { c8r1 with cacheHit := true }
    ∧ (findHealthAwareMatches { clearCustomerCache c8St1 "v" "c" with now := 10 } "v" "c" 5).1
        = Except.ok
            { «matches» := scoreAndRankMatches
                (executeHealthAwareQuery c8St.products "v" (deriveHealthConstraints c8Cust) 5)
                c8Cust (deriveHealthConstraints c8Cust),
              healthConstraintsApplied := constraintKeys (deriveHealthConstraints c8Cust),
              cacheHit := false, generatedAt := 10 } :=
  C8_cache_roundtrip_and_invalidate c8St "v" "c" 5 c8Cust c8r1 c8St1 10
    rfl rfl rfl (by decide)

/-! ## C5 -/

/-- C5 counterexample: two products with equal health score, equal
nutritional fit and equal last-updated instant, listed by the snapshot
with id b before id a, come back in the order b then a: on an
equal-score, equal-recency pair the engine keeps snapshot order and
applies no ascending-id tie-break, so the claimed total ordering is
false at this input. -/
theorem C5_counterexample_no_id_tiebreak :
    ((findHealthAwareMatches c5St "v" "c" 2).1
        = Except.ok { «matches» := [c5mb, c5ma], healthConstraintsApplied := [],
                      cacheHit := false, generatedAt := 0 })
    ∧ c5mb.healthScore = c5ma.healthScore
    ∧ c5mb.nutritionalFit = c5ma.nutritionalFit
    ∧ c5pb.updatedAt = c5pa.updatedAt
    ∧ c5mb.id = "b" ∧ c5ma.id = "a" ∧ ('a' < 'b') := by
  refine ⟨?_, rfl, rfl, rfl, rfl, rfl, by decide⟩
  have hmiss : cacheLookup c5St.cache c5St.now (mkCacheKey "v" "c" 2) = none := rfl
  have hcust : getCustomerHealthProfile c5St "v" "c" = some noProfileCust := rfl
  have h0 := fham_miss_eval c5St "v" "c" 2 noProfileCust hmiss hcust
  rw [h0]
  unfold scoreAndRankMatches
  have hmap : (executeHealthAwareQuery c5St.products "v"
        (deriveHealthConstraints noProfileCust) 2).map
      (scoreProduct noProfileCust (deriveHealthConstraints noProfileCust))
      = [c5mb, c5ma] := by decide
  have hcomb : combGE c5mb c5ma := le_of_eq rfl
  have hsort : List.insertionSort combGE [c5mb, c5ma] = [c5mb, c5ma] := by
    show List.orderedInsert combGE c5mb (List.insertionSort combGE [c5ma]) = _
    rw [show List.insertionSort combGE [c5ma] = [c5ma] from rfl]
    show (if combGE c5mb c5ma then c5mb :: [c5ma]
          else c5ma :: List.orderedInsert combGE c5mb []) = _
    rw [if_pos hcomb]
  rw [hmap, hsort]
  rfl

/-- C5 amended: each cascade pass of the feed is internally ordered score
DESC, recency DESC, id ASC (the full response concatenates the passes in
tier order), and the enterprise ranking is ordered by the combined key
0.6 healthScore + 0.4 nutritionalFit descending, ties keeping candidate
snapshot order with no id tie-break. -/
theorem C5_amended_ordering :
    (∀ (env : FeedEnv) (prefs : StrictPrefs) (limit offset : Nat),
        List.Sorted feedResultLE (strictPass env prefs limit offset))
    ∧ (∀ (env : FeedEnv) (prefs : StrictPrefs) (limit : Nat) (excl : List Nat),
        List.Sorted feedResultLE (balancedPass env prefs limit excl))
    ∧ (∀ (env : FeedEnv) (prefs : StrictPrefs) (remaining : Nat) (excl : List Nat),
        List.Sorted feedResultLE (fallbackPass env prefs remaining excl))
    ∧ (∀ (ps : List Product) (cust : CustomerRow) (cons : HealthConstraints),
        List.Sorted combGE (scoreAndRankMatches ps cust cons)) := by
  refine ⟨?_, ?_, ?_, ?_⟩
  · intro env prefs limit offset
    have hs := List.sorted_insertionSort
      (lex3 env.scoreStrict (fun r => r.updatedAt) (fun r => r.id))
      (env.recipes.filter (pass1Gate env prefs))
    have hdt : List.Pairwise (lex3 env.scoreStrict (fun r => r.updatedAt) (fun r => r.id))
        (((List.insertionSort _ (env.recipes.filter (pass1Gate env prefs))).drop
            offset).take limit) :=
      List.Pairwise.sublist
        ((List.take_sublist _ _).trans (List.drop_sublist _ _)) hs
    unfold strictPass sortFeed
    show List.Pairwise feedResultLE _
    rw [List.pairwise_map]
    exact hdt.imp (fun hab => hab)
  · intro env prefs limit excl
    have hs := List.sorted_insertionSort
      (lex3 env.scoreBalanced (fun r => r.updatedAt) (fun r => r.id))
      (env.recipes.filter (fun r => pass2Gate prefs r && !(excl.contains r.id)))
    have hdt : List.Pairwise (lex3 env.scoreBalanced (fun r => r.updatedAt) (fun r => r.id))
        ((List.insertionSort _
            (env.recipes.filter (fun r => pass2Gate prefs r && !(excl.contains r.id)))).take
          (max (limit * 2) 400)) :=
      List.Pairwise.sublist (List.take_sublist _ _) hs
    unfold balancedPass sortFeed
    show List.Pairwise feedResultLE _
    apply List.Pairwise.sublist (List.filter_sublist _)
    rw [List.pairwise_map]
    exact hdt.imp (fun hab => hab)
  · intro env prefs remaining excl
    have hs := List.sorted_insertionSort
      (lex3 (fun r => env.cooked30d r.id) (fun r : Recipe => r.updatedAt) (fun r => r.id))
      (env.recipes.filter (fun r => pass3Gate prefs r && !(excl.contains r.id)))
    have hdt : List.Pairwise
        (lex3 (fun r => env.cooked30d r.id) (fun r : Recipe => r.updatedAt) (fun r => r.id))
        ((List.insertionSort _
            (env.recipes.filter (fun r => pass3Gate prefs r && !(excl.contains r.id)))).take
          (max (remaining * 2) remaining)) :=
      List.Pairwise.sublist (List.take_sublist _ _) hs
    unfold fallbackPass
    show List.Pairwise feedResultLE _
    apply List.Pairwise.sublist (List.filter_sublist _)
    rw [List.pairwise_map]
    refine hdt.imp (fun hab => ?_)
    rcases hab with hc | ⟨he, hrest⟩
    · exact Or.inl (Nat.cast_lt.mpr hc)
    · exact Or.inr ⟨congrArg (Nat.cast : Nat → ℚ) he, hrest⟩
  · intro ps cust cons
    unfold scoreAndRankMatches
    exact List.Pairwise.sublist (List.take_sublist _ _)
      (List.sorted_insertionSort combGE (ps.map (scoreProduct cust cons)))

/-! ## C2 -/

theorem scoreAndRank_query_length (ps : List Product) (v : String)
    (cons : HealthConstraints) (l : Nat) (cust : CustomerRow) :
    (scoreAndRankMatches (executeHealthAwareQuery ps v cons l) cust cons).length
      = min 20 (min (min (l * 3) 200) ((ps.filter (productGate v cons)).length)) := by
  unfold scoreAndRankMatches executeHealthAwareQuery
  rw [List.length_take, List.length_insertionSort, List.length_map, List.length_take,
    List.length_insertionSort]

theorem strictPass_length (env : FeedEnv) (prefs : StrictPrefs) (limit : Nat) :
    (strictPass env prefs limit 0).length
      = min limit ((env.recipes.filter (pass1Gate env prefs)).length) := by
  unfold strictPass sortFeed
  rw [List.drop_zero, List.length_map, List.length_take, List.length_insertionSort]

theorem strictPass_ids (env : FeedEnv) (prefs : StrictPrefs) (limit : Nat) :
    (strictPass env prefs limit 0).map (fun fr => fr.recipe.id)
      = ((sortFeed env.scoreStrict (env.recipes.filter (pass1Gate env prefs))).take
          limit).map Recipe.id := by
  unfold strictPass
  rw [List.drop_zero, List.map_map]
  rfl

theorem strictPass_ids_full (env : FeedEnv) (prefs : StrictPrefs) (limit : Nat)
    (h : (env.recipes.filter (pass1Gate env prefs)).length ≤ limit) :
    ((strictPass env prefs limit 0).map (fun fr => fr.recipe.id)).Perm
      ((env.recipes.filter (pass1Gate env prefs)).map Recipe.id) := by
  rw [strictPass_ids]
  have htake : (sortFeed env.scoreStrict (env.recipes.filter (pass1Gate env prefs))).take limit
      = sortFeed env.scoreStrict (env.recipes.filter (pass1Gate env prefs)) := by
    apply List.take_of_length_le
    unfold sortFeed
    rw [List.length_insertionSort]
    exact h
  rw [htake]
  exact (List.perm_insertionSort _ _).map Recipe.id

theorem balancedPass_eq_nofilter (env : FeedEnv) (prefs : StrictPrefs) (limit : Nat)
    (excl : List Nat) :
    balancedPass env prefs limit excl
      = ((sortFeed env.scoreBalanced (env.recipes.filter
            (fun r => pass2Gate prefs r && !(excl.contains r.id)))).take
          (max (limit * 2) 400)).map
        (fun r => { recipe := r, score := env.scoreBalanced r,
                    reasons := build_feed_reasons r prefs.diets prefs.cuisines }) := by
  unfold balancedPass
  apply List.filter_eq_self.mpr
  intro fr hfr
  rcases List.mem_map.mp hfr with ⟨r, hr, rfl⟩
  have hr2 : r ∈ env.recipes.filter (fun r => pass2Gate prefs r && !(excl.contains r.id)) := by
    unfold sortFeed at hr
    exact mem_of_mem_take_sort _ _ _ hr
  have hg := (List.mem_filter.mp hr2).2
  simp only [Bool.and_eq_true] at hg
  exact hg.2

theorem balancedPass_length (env : FeedEnv) (prefs : StrictPrefs) (limit : Nat)
    (excl : List Nat) :
    (balancedPass env prefs limit excl).length = min (max (limit * 2) 400)
      ((env.recipes.filter (fun r => pass2Gate prefs r && !(excl.contains r.id))).length) := by
  rw [balancedPass_eq_nofilter]
  unfold sortFeed
  rw [List.length_map, List.length_take, List.length_insertionSort]

theorem balancedPass_ids_full (env : FeedEnv) (prefs : StrictPrefs) (limit : Nat)
    (excl : List Nat)
    (h : (env.recipes.filter (fun r => pass2Gate prefs r && !(excl.contains r.id))).length
      ≤ max (limit * 2) 400) :
    ((balancedPass env prefs limit excl).map (fun fr => fr.recipe.id)).Perm
      ((env.recipes.filter (fun r => pass2Gate prefs r && !(excl.contains r.id))).map
        Recipe.id) := by
  rw [balancedPass_eq_nofilter, List.map_map]
  have htake : (sortFeed env.scoreBalanced (env.recipes.filter
        (fun r => pass2Gate prefs r && !(excl.contains r.id)))).take (max (limit * 2) 400)
      = sortFeed env.scoreBalanced (env.recipes.filter
          (fun r => pass2Gate prefs r && !(excl.contains r.id))) := by
    apply List.take_of_length_le
    unfold sortFeed
    rw [List.length_insertionSort]
    exact h
  rw [htake]
  exact (List.perm_insertionSort _ _).map _

theorem fallbackPass_eq_nofilter (env : FeedEnv) (prefs : StrictPrefs) (remaining : Nat)
    (excl : List Nat) :
    fallbackPass env prefs remaining excl
      = (((env.recipes.filter
            (fun r => pass3Gate prefs r && !(excl.contains r.id))).insertionSort
          (lex3 (fun r => env.cooked30d r.id) (fun r => r.updatedAt) (fun r => r.id))).take
          (max (remaining * 2) remaining)).map
        (fun r => { recipe := r, score := ((env.cooked30d r.id : Nat) : ℚ),
                    reasons := ["Popular this month"] }) := by
  unfold fallbackPass
  apply List.filter_eq_self.mpr
  intro fr hfr
  rcases List.mem_map.mp hfr with ⟨r, hr, rfl⟩
  have hr2 : r ∈ env.recipes.filter (fun r => pass3Gate prefs r && !(excl.contains r.id)) :=
    mem_of_mem_take_sort _ _ _ hr
  have hg := (List.mem_filter.mp hr2).2
  simp only [Bool.and_eq_true] at hg
  exact hg.2

theorem fallbackPass_length (env : FeedEnv) (prefs : StrictPrefs) (remaining : Nat)
    (excl : List Nat) :
    (fallbackPass env prefs remaining excl).length = min (max (remaining * 2) remaining)
      ((env.recipes.filter (fun r => pass3Gate prefs r && !(excl.contains r.id))).length) := by
  rw [fallbackPass_eq_nofilter]
  rw [List.length_map, List.length_take, List.length_insertionSort]

theorem fallbackPass_ids_full (env : FeedEnv) (prefs : StrictPrefs) (remaining : Nat)
    (excl : List Nat)
    (h : (env.recipes.filter (fun r => pass3Gate prefs r && !(excl.contains r.id))).length
      ≤ max (remaining * 2) remaining) :
    ((fallbackPass env prefs remaining excl).map (fun fr => fr.recipe.id)).Perm
      ((env.recipes.filter (fun r => pass3Gate prefs r && !(excl.contains r.id))).map
        Recipe.id) := by
  rw [fallbackPass_eq_nofilter, List.map_map]
  have htake : ((env.recipes.filter
        (fun r => pass3Gate prefs r && !(excl.contains r.id))).insertionSort
      (lex3 (fun r => env.cooked30d r.id) (fun r => r.updatedAt) (fun r => r.id))).take
        (max (remaining * 2) remaining)
      = (env.recipes.filter
          (fun r => pass3Gate prefs r && !(excl.contains r.id))).insertionSort
        (lex3 (fun r => env.cooked30d r.id) (fun r => r.updatedAt) (fun r => r.id)) := by
    apply List.take_of_length_le
    rw [List.length_insertionSort]
    exact h
  rw [htake]
  exact (List.perm_insertionSort _ _).map _

theorem fallback_stage (env : FeedEnv) (prefs : StrictPrefs) (limit : Nat)
    (combined : List FeedResult)
    (hnd : (env.recipes.map Recipe.id).Nodup)
    (hperm : (combined.map (fun fr => fr.recipe.id)).Perm
      ((env.recipes.filter (pass2Gate prefs)).map Recipe.id))
    (hlt : combined.length < limit) :
    (limit ≤ (env.recipes.filter (pass3Gate prefs)).length →
      ((combined ++ fallbackPass env prefs (limit - combined.length)
          (combined.map (fun fr => fr.recipe.id))).take limit).length = limit)
    ∧ ((env.recipes.filter (pass3Gate prefs)).length < limit →
      (((combined ++ fallbackPass env prefs (limit - combined.length)
          (combined.map (fun fr => fr.recipe.id))).take limit).map
            (fun fr => fr.recipe.id)).Nodup
      ∧ (((combined ++ fallbackPass env prefs (limit - combined.length)
          (combined.map (fun fr => fr.recipe.id))).take limit).map
            (fun fr => fr.recipe.id)).Perm
          ((env.recipes.filter (pass3Gate prefs)).map Recipe.id)) := by
  have hS2nd : ((env.recipes.filter (pass2Gate prefs)).map Recipe.id).Nodup :=
    nodupIds_filter _ _ hnd
  have hS3nd : ((env.recipes.filter (pass3Gate prefs)).map Recipe.id).Nodup :=
    nodupIds_filter _ _ hnd
  have hcnd : (combined.map (fun fr => fr.recipe.id)).Nodup := hperm.nodup_iff.mpr hS2nd
  have hclen : combined.length = (env.recipes.filter (pass2Gate prefs)).length := by
    have := hperm.length_eq
    rwa [List.length_map, List.length_map] at this
  have hlen23 : (env.recipes.filter (pass2Gate prefs)).length
      ≤ (env.recipes.filter (pass3Gate prefs)).length :=
    length_filter_mono _ _ _ (pass2Gate_imp_pass3 prefs)
  have hreal3 : ∀ i ∈ combined.map (fun fr => fr.recipe.id),
      ∃ r, r ∈ env.recipes ∧ pass3Gate prefs r = true ∧ r.id = i := by
    intro i hi
    have hi2 : i ∈ (env.recipes.filter (pass2Gate prefs)).map Recipe.id := hperm.mem_iff.mp hi
    rcases List.mem_map.mp hi2 with ⟨r, hr, hid⟩
    obtain ⟨hrl, hg⟩ := List.mem_filter.mp hr
    exact ⟨r, hrl, pass2Gate_imp_pass3 prefs r hg, hid⟩
  have hF3len := length_filter_excl env.recipes (pass3Gate prefs)
    (combined.map (fun fr => fr.recipe.id)) hnd hcnd hreal3
  rw [List.length_map] at hF3len
  have hfalllen := fallbackPass_length env prefs (limit - combined.length)
    (combined.map (fun fr => fr.recipe.id))
  constructor
  · intro hge
    rw [List.length_take, List.length_append]
    omega
  · intro hlt3
    have hcap3 : (env.recipes.filter (fun r => pass3Gate prefs r
        && !((combined.map (fun fr => fr.recipe.id)).contains r.id))).length
        ≤ max ((limit - combined.length) * 2) (limit - combined.length) := by omega
    have hfallPerm := fallbackPass_ids_full env prefs (limit - combined.length)
      (combined.map (fun fr => fr.recipe.id)) hcap3
    have hF3nd : ((env.recipes.filter (fun r => pass3Gate prefs r
        && !((combined.map (fun fr => fr.recipe.id)).contains r.id))).map Recipe.id).Nodup :=
      nodupIds_filter _ _ hnd
    have hfallnd : ((fallbackPass env prefs (limit - combined.length)
        (combined.map (fun fr => fr.recipe.id))).map (fun fr => fr.recipe.id)).Nodup :=
      hfallPerm.nodup_iff.mpr hF3nd
    have hdisj : (combined.map (fun fr => fr.recipe.id)).Disjoint
        ((fallbackPass env prefs (limit - combined.length)
          (combined.map (fun fr => fr.recipe.id))).map (fun fr => fr.recipe.id)) := by
      intro a ha haf
      have hmem : a ∈ (env.recipes.filter (fun r => pass3Gate prefs r
          && !((combined.map (fun fr => fr.recipe.id)).contains r.id))).map Recipe.id :=
        hfallPerm.mem_iff.mp haf
      rcases List.mem_map.mp hmem with ⟨r, hr, hid⟩
      have hg := (List.mem_filter.mp hr).2
      simp only [Bool.and_eq_true] at hg
      have hnotin : r.id ∉ combined.map (fun fr => fr.recipe.id) := by simpa using hg.2
      rw [hid] at hnotin
      exact hnotin ha
    have htake : (combined ++ fallbackPass env prefs (limit - combined.length)
        (combined.map (fun fr => fr.recipe.id))).take limit
        = combined ++ fallbackPass env prefs (limit - combined.length)
            (combined.map (fun fr => fr.recipe.id)) := by
      apply List.take_of_length_le
      rw [List.length_append]
      omega
    rw [htake, List.map_append]
    have hnodapp : ((combined.map (fun fr => fr.recipe.id)) ++
        ((fallbackPass env prefs (limit - combined.length)
          (combined.map (fun fr => fr.recipe.id))).map (fun fr => fr.recipe.id))).Nodup :=
      List.nodup_append.mpr ⟨hcnd, hfallnd, hdisj⟩
    refine ⟨hnodapp, ?_⟩
    rw [List.perm_ext_iff_of_nodup hnodapp hS3nd]
    intro i
    constructor
    · intro hi
      rcases List.mem_append.mp hi with hi | hi
      · rcases hreal3 i hi with ⟨r, hrl, hg, hid⟩
        exact List.mem_map.mpr ⟨r, List.mem_filter.mpr ⟨hrl, hg⟩, hid⟩
      · have hmem : i ∈ (env.recipes.filter (fun r => pass3Gate prefs r
            && !((combined.map (fun fr => fr.recipe.id)).contains r.id))).map Recipe.id :=
          hfallPerm.mem_iff.mp hi
        rcases List.mem_map.mp hmem with ⟨r, hr, hid⟩
        obtain ⟨hrl, hg⟩ := List.mem_filter.mp hr
        simp only [Bool.and_eq_true] at hg
        exact List.mem_map.mpr ⟨r, List.mem_filter.mpr ⟨hrl, hg.1⟩, hid⟩
    · intro hi
      rcases List.mem_map.mp hi with ⟨r, hrl', hid⟩
      obtain ⟨hrl, hg⟩ := List.mem_filter.mp hrl'
      by_cases hin : i ∈ combined.map (fun fr => fr.recipe.id)
      · exact List.mem_append.mpr (Or.inl hin)
      · refine List.mem_append.mpr (Or.inr ?_)
        refine hfallPerm.mem_iff.mpr ?_
        refine List.mem_map.mpr ⟨r, List.mem_filter.mpr ⟨hrl, ?_⟩, hid⟩
        rw [Bool.and_eq_true]
        refine ⟨hg, ?_⟩
        rw [hid]
        simpa using hin

theorem feed_quota_part (env : FeedEnv) (prefs : StrictPrefs) (limit : Nat)
    (hnd : (env.recipes.map Recipe.id).Nodup) :
    (limit ≤ (feedSafeCatalog env prefs).length →
      (personalizedFeedRanked env prefs limit 0).length = limit)
    ∧ ((feedSafeCatalog env prefs).length < limit →
      ((personalizedFeedRanked env prefs limit 0).map (fun fr => fr.recipe.id)).Nodup
      ∧ ((personalizedFeedRanked env prefs limit 0).map (fun fr => fr.recipe.id)).Perm
        ((feedSafeCatalog env prefs).map Recipe.id)) := by
  have hstrictlen := strictPass_length env prefs limit
  have hlen13 : (env.recipes.filter (pass1Gate env prefs)).length
      ≤ (env.recipes.filter (pass3Gate prefs)).length :=
    length_filter_mono _ _ _
      (fun r h => pass2Gate_imp_pass3 prefs r (pass1Gate_imp_pass2 env prefs r h))
  by_cases hfull : limit ≤ (strictPass env prefs limit 0).length
  · have hout : personalizedFeedRanked env prefs limit 0 = strictPass env prefs limit 0 := by
      unfold personalizedFeedRanked
      dsimp only
      rw [if_pos hfull]
    rw [hout]
    constructor
    · intro _
      omega
    · intro hlt
      exfalso
      have hlt' : (env.recipes.filter (pass3Gate prefs)).length < limit := hlt
      omega
  · have hS1lt : (env.recipes.filter (pass1Gate env prefs)).length < limit := by omega
    have hstrictPerm := strictPass_ids_full env prefs limit (Nat.le_of_lt hS1lt)
    have hS1nd : ((env.recipes.filter (pass1Gate env prefs)).map Recipe.id).Nodup :=
      nodupIds_filter _ _ hnd
    have hexnd : ((strictPass env prefs limit 0).map (fun fr => fr.recipe.id)).Nodup :=
      hstrictPerm.nodup_iff.mpr hS1nd
    have hexlen : ((strictPass env prefs limit 0).map (fun fr => fr.recipe.id)).length
        = (env.recipes.filter (pass1Gate env prefs)).length := by
      rw [hstrictPerm.length_eq, List.length_map]
    have hreal2 : ∀ i ∈ (strictPass env prefs limit 0).map (fun fr => fr.recipe.id),
        ∃ r, r ∈ env.recipes ∧ pass2Gate prefs r = true ∧ r.id = i := by
      intro i hi
      have hi2 := hstrictPerm.mem_iff.mp hi
      rcases List.mem_map.mp hi2 with ⟨r, hr, hid⟩
      obtain ⟨hrl, hg⟩ := List.mem_filter.mp hr
      exact ⟨r, hrl, pass1Gate_imp_pass2 env prefs r hg, hid⟩
    have hF2len := length_filter_excl env.recipes (pass2Gate prefs)
      ((strictPass env prefs limit 0).map (fun fr => fr.recipe.id)) hnd hexnd hreal2
    have hballen := balancedPass_length env prefs limit
      ((strictPass env prefs limit 0).map (fun fr => fr.recipe.id))
    have hlen12 : (env.recipes.filter (pass1Gate env prefs)).length
        ≤ (env.recipes.filter (pass2Gate prefs)).length :=
      length_filter_mono _ _ _ (pass1Gate_imp_pass2 env prefs)
    have hlen23 : (env.recipes.filter (pass2Gate prefs)).length
        ≤ (env.recipes.filter (pass3Gate prefs)).length :=
      length_filter_mono _ _ _ (pass2Gate_imp_pass3 prefs)
    by_cases hfull2 : limit ≤ ((strictPass env prefs limit 0
        ++ balancedPass env prefs limit
            ((strictPass env prefs limit 0).map (fun fr => fr.recipe.id))).take limit).length
    · have hout : personalizedFeedRanked env prefs limit 0
          = (strictPass env prefs limit 0
              ++ balancedPass env prefs limit
                ((strictPass env prefs limit 0).map (fun fr => fr.recipe.id))).take limit := by
        unfold personalizedFeedRanked
        dsimp only
        rw [if_neg hfull, if_pos hfull2]
      rw [hout]
      have hcomblen : ((strictPass env prefs limit 0
          ++ balancedPass env prefs limit
            ((strictPass env prefs limit 0).map (fun fr => fr.recipe.id))).take limit).length
          = min limit ((strictPass env prefs limit 0).length
              + (balancedPass env prefs limit
                  ((strictPass env prefs limit 0).map (fun fr => fr.recipe.id))).length) := by
        rw [List.length_take, List.length_append]
      constructor
      · intro _
        omega
      · intro hlt
        exfalso
        have hlt' : (env.recipes.filter (pass3Gate prefs)).length < limit := hlt
        omega
    · have hcombllt : (strictPass env prefs limit 0).length
          + (balancedPass env prefs limit
              ((strictPass env prefs limit 0).map (fun fr => fr.recipe.id))).length < limit := by
        rw [List.length_take, List.length_append] at hfull2
        omega
      have hcap : (env.recipes.filter (fun r => pass2Gate prefs r
          && !(((strictPass env prefs limit 0).map
              (fun fr => fr.recipe.id)).contains r.id))).length
          ≤ max (limit * 2) 400 := by omega
      have hbalPerm := balancedPass_ids_full env prefs limit
        ((strictPass env prefs limit 0).map (fun fr => fr.recipe.id)) hcap
      have hcombeq : (strictPass env prefs limit 0
          ++ balancedPass env prefs limit
            ((strictPass env prefs limit 0).map (fun fr => fr.recipe.id))).take limit
          = strictPass env prefs limit 0
            ++ balancedPass env prefs limit
              ((strictPass env prefs limit 0).map (fun fr => fr.recipe.id)) := by
        apply List.take_of_length_le
        rw [List.length_append]
        omega
      have hF2nd : ((env.recipes.filter (fun r => pass2Gate prefs r
          && !(((strictPass env prefs limit 0).map
              (fun fr => fr.recipe.id)).contains r.id))).map Recipe.id).Nodup :=
        nodupIds_filter _ _ hnd
      have hS2nd : ((env.recipes.filter (pass2Gate prefs)).map Recipe.id).Nodup :=
        nodupIds_filter _ _ hnd
      have hdisj : ((strictPass env prefs limit 0).map (fun fr => fr.recipe.id)).Disjoint
          ((balancedPass env prefs limit
            ((strictPass env prefs limit 0).map (fun fr => fr.recipe.id))).map
              (fun fr => fr.recipe.id)) := by
        intro a ha haf
        have h2 := hbalPerm.mem_iff.mp haf
        rcases List.mem_map.mp h2 with ⟨r, hr, hid⟩
        have hg := (List.mem_filter.mp hr).2
        simp only [Bool.and_eq_true] at hg
        have hnotin : r.id ∉ (strictPass env prefs limit 0).map (fun fr => fr.recipe.id) := by
          simpa using hg.2
        rw [hid] at hnotin
        exact hnotin ha
      have hbalnd : ((balancedPass env prefs limit
          ((strictPass env prefs limit 0).map (fun fr => fr.recipe.id))).map
            (fun fr => fr.recipe.id)).Nodup := hbalPerm.nodup_iff.mpr hF2nd
      have happnd : (((strictPass env prefs limit 0).map (fun fr => fr.recipe.id))
          ++ ((balancedPass env prefs limit
              ((strictPass env prefs limit 0).map (fun fr => fr.recipe.id))).map
                (fun fr => fr.recipe.id))).Nodup :=
        List.nodup_append.mpr ⟨hexnd, hbalnd, hdisj⟩
      have hcombPerm : ((strictPass env prefs limit 0
            ++ balancedPass env prefs limit
              ((strictPass env prefs limit 0).map (fun fr => fr.recipe.id))).map
              (fun fr => fr.recipe.id)).Perm
          ((env.recipes.filter (pass2Gate prefs)).map Recipe.id) := by
        rw [List.map_append]
        rw [List.perm_ext_iff_of_nodup happnd hS2nd]
        intro i
        constructor
        · intro hi
          rcases List.mem_append.mp hi with hi | hi
          · rcases hreal2 i hi with ⟨r, hrl, hg, hid⟩
            exact List.mem_map.mpr ⟨r, List.mem_filter.mpr ⟨hrl, hg⟩, hid⟩
          · have h2 := hbalPerm.mem_iff.mp hi
            rcases List.mem_map.mp h2 with ⟨r, hr, hid⟩
            obtain ⟨hrl, hg⟩ := List.mem_filter.mp hr
            simp only [Bool.and_eq_true] at hg
            exact List.mem_map.mpr ⟨r, List.mem_filter.mpr ⟨hrl, hg.1⟩, hid⟩
        · intro hi
          rcases List.mem_map.mp hi with ⟨r, hrl', hid⟩
          obtain ⟨hrl, hg⟩ := List.mem_filter.mp hrl'
          by_cases hin : i ∈ (strictPass env prefs limit 0).map (fun fr => fr.recipe.id)
          · exact List.mem_append.mpr (Or.inl hin)
          · refine List.mem_append.mpr (Or.inr ?_)
            refine hbalPerm.mem_iff.mpr ?_
            refine List.mem_map.mpr ⟨r, List.mem_filter.mpr ⟨hrl, ?_⟩, hid⟩
            rw [Bool.and_eq_true]
            refine ⟨hg, ?_⟩
            rw [hid]
            simpa using hin
      have hcomblen2 : (strictPass env prefs limit 0
          ++ balancedPass env prefs limit
            ((strictPass env prefs limit 0).map (fun fr => fr.recipe.id))).length
          = (env.recipes.filter (pass2Gate prefs)).length := by
        have := hcombPerm.length_eq
        rwa [List.length_map, List.length_map] at this
      have hstage := fallback_stage env prefs limit
        (strictPass env prefs limit 0
          ++ balancedPass env prefs limit
            ((strictPass env prefs limit 0).map (fun fr => fr.recipe.id)))
        hnd hcombPerm (by omega)
      have hout : personalizedFeedRanked env prefs limit 0
          = ((strictPass env prefs limit 0
              ++ balancedPass env prefs limit
                ((strictPass env prefs limit 0).map (fun fr => fr.recipe.id)))
            ++ fallbackPass env prefs
                (limit - (strictPass env prefs limit 0
                  ++ balancedPass env prefs limit
                    ((strictPass env prefs limit 0).map (fun fr => fr.recipe.id))).length)
                ((strictPass env prefs limit 0
                  ++ balancedPass env prefs limit
                    ((strictPass env prefs limit 0).map (fun fr => fr.recipe.id))).map
                  (fun fr => fr.recipe.id))).take limit := by
        unfold personalizedFeedRanked
        dsimp only
        rw [if_neg hfull, if_neg hfull2, hcombeq]
      rw [hout]
      exact hstage

/-- C2 counterexample: with a quota of 1 and a safe catalog of three
products (no allergen constraints, cold cache, existing customer), the
enterprise entry point returns three matches, not one: the ranking step
keeps min(min(limit*3, 200), catalog) candidates and cuts at the
hard-coded 20, ignoring the limit argument, so the claimed
exactly-quota property is false at this input. -/
theorem C2_counterexample_fham_ignores_quota :
    1 ≤ (c2St.products.filter (productGate "v" (deriveHealthConstraints noProfileCust))).length
    ∧ (findHealthAwareMatches c2St "v" "c" 1).1
        = Except.ok
            { «matches» := (scoreAndRankMatches (executeHealthAwareQuery c2St.products "v"
                (deriveHealthConstraints noProfileCust) 1) noProfileCust
                (deriveHealthConstraints noProfileCust)),
              healthConstraintsApplied := constraintKeys (deriveHealthConstraints noProfileCust),
              cacheHit := false, generatedAt := 0 }
    ∧ (scoreAndRankMatches (executeHealthAwareQuery c2St.products "v"
          (deriveHealthConstraints noProfileCust) 1) noProfileCust
          (deriveHealthConstraints noProfileCust)).length = 3
    ∧ (3 : Nat) ≠ 1 := by
  refine ⟨by decide, fham_miss_eval c2St "v" "c" 1 noProfileCust rfl rfl, ?_, by decide⟩
  rw [scoreAndRank_query_length]
  decide

/-- C2 amended: the quota property holds for the consumer feed: over any
snapshot with distinct recipe ids and any preferences, a page request
(offset 0) returns exactly the limit when the safe catalog (the most
relaxed tier gate: published, US, diets, allergens) has at least limit
recipes, and otherwise returns exactly the safe catalog, deduplicated by
recipe id with no filler.  The enterprise entry point instead returns
min(20, min(limit*3, 200), safe-catalog-size) matches: its limit
argument only scales the pre-fetch, and the final cut is the hard-coded
20, so the returned count matches the quota only when these coincide. -/
theorem C2_amended_quota :
    (∀ (env : FeedEnv) (prefs : StrictPrefs) (limit : Nat),
      ((env.recipes.map Recipe.id).Nodup) →
      (limit ≤ (feedSafeCatalog env prefs).length →
        (personalizedFeedRanked env prefs limit 0).length = limit)
      ∧ ((feedSafeCatalog env prefs).length < limit →
        ((personalizedFeedRanked env prefs limit 0).map (fun fr => fr.recipe.id)).Nodup
        ∧ ((personalizedFeedRanked env prefs limit 0).map (fun fr => fr.recipe.id)).Perm
          ((feedSafeCatalog env prefs).map Recipe.id)))
    ∧ (∀ (ps : List Product) (v : String) (cons : HealthConstraints) (l : Nat)
        (cust : CustomerRow),
        (scoreAndRankMatches (executeHealthAwareQuery ps v cons l) cust cons).length
          = min 20 (min (min (l * 3) 200) ((ps.filter (productGate v cons)).length))) :=
  ⟨fun env prefs limit hnd => feed_quota_part env prefs limit hnd,
   fun ps v cons l cust => scoreAndRank_query_length ps v cons l cust⟩

/-- Witness: the amended quota theorem applied to a concrete one-recipe
catalog with quota one. -/
theorem C2_amended_quota_witness :
    (personalizedFeedRanked c2wEnv emptyPrefs 1 0).length = 1 :=
  (C2_amended_quota.1 c2wEnv emptyPrefs 1 (by decide)).1 (by decide)
